import Mathlib

/-!
Verification development for the svoose client-side telemetry pipeline.

The definitions below are shallow embeddings of the TypeScript source:

* `src/observe/sampling.ts` — `normalizeRate`, `createSampler`,
  `eventTypeToSamplingType`;
* `src/observe/session.ts` — `createSessionManager` / `getSessionId`;
* the event pipeline of `observe()` — `bufferEvent` / `flush`;
* `src/transport/beacon.ts` — `sendChunk` / `send`;
* `src/observe/vitals.ts` — `observeCLS`, `observeLCP`, `observeINP`;
* `src/metrics/metric.ts` — `metric` / `setMetricEmitter`;
* `src/machine` — the transition-event emission of `createMachine`.

JavaScript numbers are modelled as rationals (`ℚ`) where fractional values
occur (sampling rates, CLS shift scores, high resolution timestamps) and as
`Int`/`Nat` where the source only uses integral epoch milliseconds or byte
counts.  `Math.random()` draws are passed in explicitly, either as a single
rational argument or as a stream with a cursor, so that draw consumption is
observable.
-/

namespace Svoose

/-! ## Sampler (src/observe/sampling.ts) -/

/-- Sampling categories, the keys of `SamplingConfig`. -/
inductive SCat where
  | vitals
  | errors
  | custom
  | transitions
  | identify
deriving DecidableEq

/-- `SamplingConfig`: optional per-category rates (missing field = `undefined`). -/
structure SamplingConfig where
  vitals : Option ℚ := none
  errors : Option ℚ := none
  custom : Option ℚ := none
  transitions : Option ℚ := none
  identify : Option ℚ := none

/-- `SamplingOption`: a single number or a per-category map. -/
inductive SamplingOption where
  | num (r : ℚ)
  | table (c : SamplingConfig)

/-- `normalizeRate`: clamp a rate to `[0, 1]`. -/
def normalizeRate (rate : ℚ) : ℚ :=
  if rate ≤ 0 then 0
  else if rate ≥ 1 then 1
  else rate

/-- The `rates` record built by `createSampler`: a number gives every category
the normalized rate except `identify`, which is set to `1`; a map normalizes
each present field and defaults missing fields to `1`. -/
def samplerRates (config : SamplingOption) : SCat → ℚ :=
  fun cat =>
    match config with
    | .num r =>
        match cat with
        | .identify => 1
        | _ => normalizeRate r
    | .table c =>
        match cat with
        | .vitals => normalizeRate (c.vitals.getD 1)
        | .errors => normalizeRate (c.errors.getD 1)
        | .custom => normalizeRate (c.custom.getD 1)
        | .transitions => normalizeRate (c.transitions.getD 1)
        | .identify => normalizeRate (c.identify.getD 1)

/-- `shouldSample` on a single rate, given the `Math.random()` value that the
call would draw.  The two fast paths return without drawing; the middle
branch compares the draw strictly against the rate. -/
def shouldSample (rate : ℚ) (draw : ℚ) : Bool :=
  if rate ≥ 1 then true
  else if rate ≤ 0 then false
  else decide (draw < rate)

/-- `eventTypeToSamplingType`: map an event discriminant string to a
sampling category. -/
def eventTypeToSamplingType (eventType : String) : Option SCat :=
  match eventType with
  | "vital" => some .vitals
  | "error" => some .errors
  | "unhandled-rejection" => some .errors
  | "custom" => some .custom
  | "transition" => some .transitions
  | "identify" => some .identify
  | _ => none

/-! ## Session manager (src/observe/session.ts)

Times are epoch milliseconds (`Int`).  A generated id
(`timestamp-randomSuffix`) is modelled as the pair of its two components;
the random suffix is an abstract `Nat`.  The storage backend is modelled as
an optional persisted session plus a flag saying whether storage access
works (memory-only configuration and quota/privacy failures both make every
storage operation a no-op that returns nothing, exactly as `getStorage`
returning `null` does). -/

/-- A session id: the `Date.now()` timestamp and the random suffix of
`generateId`. -/
abbrev SessionId := Int × ℕ

/-- The persisted `Session` object. -/
structure Session where
  id : SessionId
  startedAt : Int
  lastActivity : Int
deriving DecidableEq

/-- In-memory state of a session manager: `currentSession` and the storage
slot for the `svoose_session` key. -/
structure MgrState where
  current : Option Session
  stored : Option Session
deriving DecidableEq

/-- Session manager configuration: the timeout and whether the chosen
storage backend is usable. -/
structure MgrConfig where
  timeout : Int
  storageOk : Bool

/-- `generateId`: timestamp plus random suffix. -/
def generateId (now : Int) (rand : ℕ) : SessionId := (now, rand)

/-- `save`: persist a session when storage is usable, silently do nothing
otherwise. -/
def saveSession (cfg : MgrConfig) (st : MgrState) (s : Session) : MgrState :=
  if cfg.storageOk then { st with stored := some s } else st

/-- `load`: read the persisted session when storage is usable. -/
def loadSession (cfg : MgrConfig) (st : MgrState) : Option Session :=
  if cfg.storageOk then st.stored else none

/-- `createNew`: build a fresh session at time `now` and persist it. -/
def createNew (cfg : MgrConfig) (st : MgrState) (now : Int) (rand : ℕ) :
    Session × MgrState :=
  let s : Session := { id := generateId now rand, startedAt := now, lastActivity := now }
  (s, saveSession cfg st s)

/-- `isExpired`: `now - lastActivity > timeout`. -/
def isExpired (cfg : MgrConfig) (s : Session) (now : Int) : Bool :=
  decide (now - s.lastActivity > cfg.timeout)

/-- `getSessionId`: load the persisted session when none is in memory,
create a new one when none exists or the current one is expired, otherwise
advance `lastActivity` and re-persist.  Returns the id and the new manager
state. -/
def getSessionId (cfg : MgrConfig) (st : MgrState) (now : Int) (rand : ℕ) :
    SessionId × MgrState :=
  let cur : Option Session :=
    match st.current with
    | some s => some s
    | none => loadSession cfg st
  match cur with
  | none =>
      let (s, st1) := createNew cfg st now rand
      (s.id, { st1 with current := some s })
  | some s =>
      if isExpired cfg s now then
        let (s2, st1) := createNew cfg st now rand
        (s2.id, { st1 with current := some s2 })
      else
        let s2 : Session := { s with lastActivity := now }
        let st1 := saveSession cfg st s2
        (s.id, { st1 with current := some s2 })

/-- Well-formedness of a manager state at time `now`: every session held in
memory or in storage was produced by `createNew` in the past — its id
timestamp is its `startedAt`, its `lastActivity` never went backwards, and
it does not lie in the future. -/
def MgrWF (st : MgrState) (now : Int) : Prop :=
  ∀ s : Session, st.current = some s ∨ st.stored = some s →
    s.id.1 = s.startedAt ∧ s.startedAt ≤ s.lastActivity ∧ s.lastActivity ≤ now

/-! ## Event pipeline buffer and flush (observe()) -/

/-- Operations applied to the pipeline: accepting an event into the buffer
(`bufferEvent` past its filter) or an explicit flush trigger (timer,
visibility change, unload, teardown). -/
inductive PipeOp where
  | push (e : ℕ)
  | flush
deriving DecidableEq

/-- Pipeline state: the owned buffer and the batches handed to
`transport.send`, in order. -/
structure PipeState where
  buffer : List ℕ
  sent : List (List ℕ)
deriving DecidableEq

/-- `flush()`: if the buffer is empty do nothing; otherwise splice out the
whole buffer in one synchronous step and hand it to the transport. -/
def flushPipe (s : PipeState) : PipeState :=
  if s.buffer = [] then s
  else { buffer := [], sent := s.sent ++ [s.buffer] }

/-- One pipeline step: a push appends to the buffer and flushes immediately
when the buffer has reached `batchSize`; a flush trigger runs `flush()`. -/
def pipeStep (batchSize : ℕ) (s : PipeState) (op : PipeOp) : PipeState :=
  match op with
  | .push e =>
      if (s.buffer ++ [e]).length ≥ batchSize then flushPipe { s with buffer := s.buffer ++ [e] }
      else { s with buffer := s.buffer ++ [e] }
  | .flush => flushPipe s

/-- Run a sequence of pipeline operations from the empty pipeline. -/
def runPipe (batchSize : ℕ) (ops : List PipeOp) : PipeState :=
  ops.foldl (pipeStep batchSize) { buffer := [], sent := [] }

/-- The events accepted into the buffer over a run, in order. -/
def pushedEvents (ops : List PipeOp) : List ℕ :=
  ops.filterMap (fun op => match op with | .push e => some e | .flush => none)

/-! ## Beacon transport (src/transport/beacon.ts)

An event is represented by the byte length of its JSON serialization.
`JSON.stringify` of a batch is the two brackets plus the event texts plus
one comma between consecutive events, so the payload length of a batch is
determined by the events' lengths. -/

/-- `MAX_CHUNK_DEPTH`. -/
def MAX_CHUNK_DEPTH : ℕ := 20

/-- `DEFAULT_MAX_PAYLOAD_SIZE` (60 KB). -/
def DEFAULT_MAX_PAYLOAD_SIZE : ℕ := 60 * 1024

/-- Length of `JSON.stringify(events)` where each event contributes the
length of its own serialization. -/
def payloadLen (events : List ℕ) : ℕ :=
  match events with
  | [] => 2
  | _ => events.sum + events.length + 1

/-- Observable outcome of a beacon `send`: the payloads actually handed to
`navigator.sendBeacon` (each still a list of events), the events dropped
(single event over the ceiling, or chunk-depth limit reached), the number
of `console.error` messages, and the number of `onError` callback
invocations. -/
structure BeaconResult where
  delivered : List (List ℕ)
  dropped : List ℕ
  consoleErrors : ℕ
  onErrorCalls : ℕ
deriving DecidableEq

/-- The empty outcome. -/
def BeaconResult.empty : BeaconResult :=
  { delivered := [], dropped := [], consoleErrors := 0, onErrorCalls := 0 }

/-- Sequential composition of two outcomes. -/
def BeaconResult.append (a b : BeaconResult) : BeaconResult :=
  { delivered := a.delivered ++ b.delivered
    dropped := a.dropped ++ b.dropped
    consoleErrors := a.consoleErrors + b.consoleErrors
    onErrorCalls := a.onErrorCalls + b.onErrorCalls }

/-- `sendChunk(events, depth)`, written with the remaining recursion budget
`gas = MAX_CHUNK_DEPTH - depth`, so the guard `depth >= MAX_CHUNK_DEPTH`
becomes `gas = 0`.  `beaconAvail` models `navigator.sendBeacon` being
present; `beaconOk` models the boolean result of `navigator.sendBeacon`
(which triggers `onError` when false). -/
def sendChunk (maxPayloadSize : ℕ) (beaconAvail : Bool) (beaconOk : List ℕ → Bool) :
    ℕ → List ℕ → BeaconResult
  | _, [] => .empty
  | 0, e :: es =>
      { delivered := [], dropped := e :: es, consoleErrors := 1, onErrorCalls := 0 }
  | gas + 1, e :: es =>
      let events := e :: es
      if payloadLen events > maxPayloadSize then
        if events.length = 1 then
          { delivered := [], dropped := events, consoleErrors := 1, onErrorCalls := 0 }
        else
          let mid := events.length / 2
          BeaconResult.append
            (sendChunk maxPayloadSize beaconAvail beaconOk gas (events.take mid))
            (sendChunk maxPayloadSize beaconAvail beaconOk gas (events.drop mid))
      else
        if beaconAvail then
          { delivered := [events], dropped := [], consoleErrors := 0
            onErrorCalls := if beaconOk events then 0 else 1 }
        else .empty

/-- `send(events)` of the beacon transport: empty batches and missing
`navigator` short-circuit; otherwise chunking starts at depth 0. -/
def beaconSend (maxPayloadSize : ℕ) (navigatorDefined beaconAvail : Bool)
    (beaconOk : List ℕ → Bool) (events : List ℕ) : BeaconResult :=
  if events = [] then .empty
  else if navigatorDefined then
    sendChunk maxPayloadSize beaconAvail beaconOk MAX_CHUNK_DEPTH events
  else .empty

/-! ## CLS observer (src/observe/vitals.ts, observeCLS)

High-resolution timestamps and shift values are rationals. -/

/-- A `layout-shift` performance entry. -/
structure ShiftEntry where
  startTime : ℚ
  value : ℚ
  hadRecentInput : Bool
deriving DecidableEq

/-- `SESSION_GAP` (1 second). -/
def SESSION_GAP : ℚ := 1000

/-- `SESSION_MAX` (5 seconds). -/
def SESSION_MAX : ℚ := 5000

/-- The session-window accumulator of `observeCLS`: `sessionValue`,
`sessionStart` (`-1` sentinel before the first qualifying shift),
`lastEntryTime` and `maxSessionValue`. -/
structure CLSAccum where
  sessionValue : ℚ
  sessionStart : ℚ
  lastEntryTime : ℚ
  maxSessionValue : ℚ
deriving DecidableEq

/-- Initial accumulator. -/
def clsInit : CLSAccum :=
  { sessionValue := 0, sessionStart := -1, lastEntryTime := 0, maxSessionValue := 0 }

/-- One iteration of the `processEntries` loop body. -/
def clsStep (s : CLSAccum) (e : ShiftEntry) : CLSAccum :=
  if e.hadRecentInput then s
  else
    let p :=
      if s.sessionStart = -1 ∨ e.startTime - s.lastEntryTime > SESSION_GAP ∨
          e.startTime - s.sessionStart > SESSION_MAX then
        (e.startTime, (0 : ℚ))
      else (s.sessionStart, s.sessionValue)
    let sessionValue := p.2 + e.value
    { sessionValue := sessionValue
      sessionStart := p.1
      lastEntryTime := e.startTime
      maxSessionValue :=
        if sessionValue > s.maxSessionValue then sessionValue else s.maxSessionValue }

/-- `processEntries` over a batch of entries. -/
def processEntries (s : CLSAccum) (entries : List ShiftEntry) : CLSAccum :=
  entries.foldl clsStep s

/-! ### Specification-side session windows

These definitions follow the words of the claim only, for comparison with
the accumulator above: qualifying entries are grouped into windows, a new
window starting exactly when there is no current window, the gap since the
previous shift exceeds 1000 ms, or the time since the window's first shift
exceeds 5000 ms; the CLS value is the maximum window total. -/

/-- A window in the grouping: time of its first shift, time of its last
shift so far, and its accumulated total. -/
structure SpecWindow where
  firstTime : ℚ
  lastTime : ℚ
  total : ℚ
deriving DecidableEq

/-- Grouping step: completed windows so far plus the current window. -/
def specStep (acc : List SpecWindow × Option SpecWindow) (e : ShiftEntry) :
    List SpecWindow × Option SpecWindow :=
  if e.hadRecentInput then acc
  else
    match acc.2 with
    | none => (acc.1, some { firstTime := e.startTime, lastTime := e.startTime, total := e.value })
    | some w =>
        if e.startTime - w.lastTime > 1000 ∨ e.startTime - w.firstTime > 5000 then
          (acc.1 ++ [w],
           some { firstTime := e.startTime, lastTime := e.startTime, total := e.value })
        else
          (acc.1, some { w with lastTime := e.startTime, total := w.total + e.value })

/-- All session windows of an entry sequence, in order. -/
def specWindows (entries : List ShiftEntry) : List SpecWindow :=
  let acc := entries.foldl specStep ([], none)
  acc.1 ++ acc.2.toList

/-- The maximum session-window total (0 when there are no windows). -/
def maxWindowTotal (entries : List ShiftEntry) : ℚ :=
  ((specWindows entries).map SpecWindow.total).foldl max 0

/-- Simulation relation between the code accumulator and the
specification-side grouping state: before any qualifying entry both are
initial; afterwards the accumulator mirrors the current window, and
`maxSessionValue` is the maximum of the completed window totals and the
current window total. -/
def ClsSpecInv (a : CLSAccum) (w : List SpecWindow × Option SpecWindow) : Prop :=
  match w.2 with
  | none => a = clsInit ∧ w.1 = []
  | some cw =>
      a.sessionStart = cw.firstTime ∧ a.lastEntryTime = cw.lastTime ∧
      a.sessionValue = cw.total ∧ 0 ≤ cw.firstTime ∧
      a.maxSessionValue = max ((w.1.map SpecWindow.total).foldl max 0) cw.total

/-! ### CLS observer lifecycle -/

/-- External events reaching the CLS observer: a batch of performance
entries, the lifecycle listeners, and the cleanup function. -/
inductive CLSOp where
  | entries (es : List ShiftEntry)
  | hidden
  | visible
  | pagehide
  | teardown
deriving DecidableEq

/-- Full state of one `observeCLS` closure.  `reports` records the values
passed to the callback, in order; `tornDown` records that the cleanup ran
(observer disconnected, listeners removed). -/
structure CLSObs where
  accum : CLSAccum
  prevReportedValue : ℚ
  hasReported : Bool
  tornDown : Bool
  reports : List ℚ
deriving DecidableEq

/-- Initial CLS observer state. -/
def clsObsInit : CLSObs :=
  { accum := clsInit, prevReportedValue := 0, hasReported := false,
    tornDown := false, reports := [] }

/-- `reportCLS`: report only when a value exists and it changed since the
previous report. -/
def reportCLS (s : CLSObs) : CLSObs :=
  if s.accum.maxSessionValue > 0 ∧ s.accum.maxSessionValue ≠ s.prevReportedValue then
    { s with reports := s.reports ++ [s.accum.maxSessionValue]
             prevReportedValue := s.accum.maxSessionValue
             hasReported := true }
  else s

/-- One step of the CLS observer.  After teardown the performance observer
is disconnected and the listeners removed, so nothing reacts. -/
def clsObsStep (s : CLSObs) (op : CLSOp) : CLSObs :=
  if s.tornDown then s
  else
    match op with
    | .entries es => { s with accum := processEntries s.accum es }
    | .hidden => reportCLS s
    | .visible => s
    | .pagehide => reportCLS s
    | .teardown =>
        let s1 : CLSObs := { s with tornDown := true }
        if ¬ s1.hasReported ∧ s1.accum.maxSessionValue > 0 then reportCLS s1 else s1

/-- Run the CLS observer over a trace. -/
def runCLS (ops : List CLSOp) : CLSObs :=
  ops.foldl clsObsStep clsObsInit

/-! ### LCP observer (observeLCP) -/

/-- External events reaching the LCP observer: performance entry batches
(each entry is its `startTime`), first user input, visibility changes, and
cleanup. -/
inductive LCPOp where
  | entries (es : List ℚ)
  | input
  | hidden
  | visible
  | teardown
deriving DecidableEq

/-- State of one `observeLCP` closure.  `stopped` records that
`stopListening` or the cleanup ran (observer disconnected, listeners
removed). -/
structure LCPObs where
  lcpValue : ℚ
  prevReportedValue : ℚ
  hasReported : Bool
  stopped : Bool
  reports : List ℚ
deriving DecidableEq

/-- Initial LCP observer state. -/
def lcpObsInit : LCPObs :=
  { lcpValue := 0, prevReportedValue := 0, hasReported := false,
    stopped := false, reports := [] }

/-- `reportLCP`: report the running value once, when positive. -/
def reportLCP (s : LCPObs) : LCPObs :=
  if s.lcpValue > 0 ∧ ¬ s.hasReported then
    { s with reports := s.reports ++ [s.lcpValue]
             prevReportedValue := s.lcpValue
             hasReported := true }
  else s

/-- One step of the LCP observer.  Entry batches keep the last entry; first
input and becoming hidden run `stopListening` (report, disconnect, remove
listeners); cleanup reports the last known value when none was reported. -/
def lcpObsStep (s : LCPObs) (op : LCPOp) : LCPObs :=
  if s.stopped then s
  else
    match op with
    | .entries es =>
        match es.getLast? with
        | some v => { s with lcpValue := v }
        | none => s
    | .input => { reportLCP s with stopped := true }
    | .hidden => { reportLCP s with stopped := true }
    | .visible => s
    | .teardown =>
        let s1 := if ¬ s.hasReported ∧ s.lcpValue > 0 then reportLCP s else s
        { s1 with stopped := true }

/-- Run the LCP observer over a trace. -/
def runLCP (ops : List LCPOp) : LCPObs :=
  ops.foldl lcpObsStep lcpObsInit

/-! ### INP observer (observeINP) -/

/-- An `event` performance entry: its `interactionId` (0 models both `0`
and `undefined`) and its duration. -/
structure INPEntry where
  interactionId : ℕ
  duration : ℚ
deriving DecidableEq

/-- External events reaching the INP observer. -/
inductive INPOp where
  | entries (es : List INPEntry)
  | hidden
  | visible
  | pagehide
  | teardown
deriving DecidableEq

/-- State of one `observeINP` closure, including the bounded deduplication
set `processedInteractions`. -/
structure INPObs where
  maxINP : ℚ
  prevReportedValue : ℚ
  hasReported : Bool
  processedInteractions : Finset ℕ
  tornDown : Bool
  reports : List ℚ
deriving DecidableEq

/-- Initial INP observer state. -/
def inpObsInit : INPObs :=
  { maxINP := 0, prevReportedValue := 0, hasReported := false,
    processedInteractions := ∅, tornDown := false, reports := [] }

/-- `reportINP`: report the running maximum once, when positive. -/
def reportINP (s : INPObs) : INPObs :=
  if s.maxINP > 0 ∧ ¬ s.hasReported then
    { s with reports := s.reports ++ [s.maxINP]
             prevReportedValue := s.maxINP
             hasReported := true }
  else s

/-- One iteration of the INP entry loop: skip non-interactions and
duplicates, clear the deduplication set at 1000 entries, then track the
maximum duration. -/
def inpEntryStep (s : INPObs) (e : INPEntry) : INPObs :=
  if e.interactionId = 0 then s
  else if e.interactionId ∈ s.processedInteractions then s
  else
    let cleared :=
      if s.processedInteractions.card ≥ 1000 then (∅ : Finset ℕ)
      else s.processedInteractions
    { s with processedInteractions := insert e.interactionId cleared
             maxINP := if e.duration > s.maxINP then e.duration else s.maxINP }

/-- One step of the INP observer. -/
def inpObsStep (s : INPObs) (op : INPOp) : INPObs :=
  if s.tornDown then s
  else
    match op with
    | .entries es => es.foldl inpEntryStep s
    | .hidden => reportINP s
    | .visible => s
    | .pagehide => reportINP s
    | .teardown =>
        let s1 : INPObs := { s with tornDown := true }
        if ¬ s1.hasReported ∧ s1.maxINP > 0 then reportINP s1 else s1

/-- Run the INP observer over a trace. -/
def runINP (ops : List INPOp) : INPObs :=
  ops.foldl inpObsStep inpObsInit

/-! ## Custom metrics module (src/metrics/metric.ts) -/

/-- `MAX_PENDING_EVENTS`. -/
def MAX_PENDING_EVENTS : ℕ := 100

/-- Module-level state of the metrics module: whether an emitter is wired
(`observe()` registered its pipeline), the pending buffer, and the events
actually handed to an emitter. -/
structure MetricGlobal where
  emitterSet : Bool
  pendingEvents : List ℕ
  emitted : List ℕ
deriving DecidableEq

/-- `emitEvent` (the body of `metric()`): hand the event to the emitter when
one is wired; otherwise queue it in the pending buffer unless the buffer is
full, in which case it is dropped with a dev warning. -/
def metricEmitEvent (g : MetricGlobal) (e : ℕ) : MetricGlobal :=
  if g.emitterSet then { g with emitted := g.emitted ++ [e] }
  else if g.pendingEvents.length ≥ MAX_PENDING_EVENTS then g
  else { g with pendingEvents := g.pendingEvents ++ [e] }

/-- `setMetricEmitter`: install or remove the emitter; installing one
flushes the pending buffer through it. -/
def setMetricEmitter (g : MetricGlobal) (enable : Bool) : MetricGlobal :=
  if enable ∧ g.pendingEvents ≠ [] then
    { emitterSet := true, pendingEvents := [], emitted := g.emitted ++ g.pendingEvents }
  else { g with emitterSet := enable }

/-! ## Machine transition emission (src/machine, end of send()) -/

/-- The observation tail of `createMachine`'s `send`: when transition
observation is configured, the event is handed to the process-wide observer
if one is registered and is otherwise discarded — the machine keeps no
queue.  Returns the list of events emitted by this call. -/
def machineEmitTransition (observeTransitions : Bool) (observerSet : Bool)
    (ev : ℕ) : List ℕ :=
  if observeTransitions then
    if observerSet then [ev] else []
  else []

/-! ## observe() initialization (sampleRate early exit) -/

/-- The `ObserveOptions` fields that the initialization path reads. -/
structure ObserveOpts where
  sampleRate : Option ℚ := none
  vitals : Bool := true
  errors : Bool := true

/-- `defaults.sampleRate`. -/
def defaultSampleRate : ℚ := 1

/-- What `observe()` installed before returning its cleanup function. -/
structure ObserveInstalled where
  vitalObserverCount : ℕ
  errorListener : Bool
  globalObserverSet : Bool
  flushTimerSet : Bool
  lifecycleListenerCount : ℕ
deriving DecidableEq

/-- The no-op outcome of the sampling early exit. -/
def observeNoop : ObserveInstalled :=
  { vitalObserverCount := 0, errorListener := false, globalObserverSet := false,
    flushTimerSet := false, lifecycleListenerCount := 0 }

/-- `observe()` initialization: one `Math.random()` draw against the
effective `sampleRate`; a draw above it returns the no-op cleanup before
installing anything, otherwise the observers, listeners and flush timer are
installed. -/
def observeInit (opts : ObserveOpts) (draw : ℚ) : ObserveInstalled :=
  if draw > opts.sampleRate.getD defaultSampleRate then observeNoop
  else
    { vitalObserverCount := if opts.vitals then 6 else 0
      errorListener := opts.errors
      globalObserverSet := true
      flushTimerSet := true
      lifecycleListenerCount := 2 }

/-- Batches delivered by an `observe()` call over a pipeline trace: the
early-exit branch owns no buffer and never delivers anything. -/
def observeRun (opts : ObserveOpts) (draw : ℚ) (batchSize : ℕ)
    (ops : List PipeOp) : List (List ℕ) :=
  if draw > opts.sampleRate.getD defaultSampleRate then []
  else (runPipe batchSize ops).sent

/-! ## Full bufferEvent with sampling and session tagging

The repository at head wires `createSampler` and the session manager into
`observe()`'s `bufferEvent` (its tests in `tests/` drive `observe` with
`sampling` and `session` options, and `ObserveOptions` in
`src/types/index.ts` declares both), but that revision of the pipeline file
is not among the provided sources — only an earlier revision without the
two steps is.  The composition below is therefore modelled from the spec;
the sampler and session components it uses are the embeddings of the
source files above. -/

/-- An event as seen by the full pipeline: its `type` discriminant, an
identity, and its optional session tag. -/
structure MEvent where
  etype : String
  eid : ℕ
  sessionId : Option ℕ := none
deriving DecidableEq

/-- Configuration of the full pipeline.  The random stream `rng` together
with a cursor makes draw consumption observable; `sessionId` is the id the
session manager returns for the current call. -/
structure FullPipeConfig where
  filter : Option (MEvent → Bool)
  sampling : SamplingOption
  sessionEnabled : Bool
  sessionId : ℕ
  batchSize : ℕ
  rng : ℕ → ℚ

/-- State of the full pipeline: buffer, delivered batches, and the random
stream cursor (how many draws have been consumed). -/
structure FullPipeState where
  buffer : List MEvent
  sent : List (List MEvent)
  rngIdx : ℕ

/-- The optional caller-supplied filter; absent means keep. -/
def applyFilter (filter : Option (MEvent → Bool)) (e : MEvent) : Bool :=
  match filter with
  | some f => f e
  | none => true

/-- `shouldSample` with explicit draw consumption: the deterministic fast
paths consume nothing, the probabilistic branch consumes exactly one draw
from the stream. -/
def samplerDraw (rate : ℚ) (rng : ℕ → ℚ) (k : ℕ) : Bool × ℕ :=
  if rate ≥ 1 then (true, k)
  else if rate ≤ 0 then (false, k)
  else (decide (rng k < rate), k + 1)

/-- Append a surviving event and flush immediately when the buffer reaches
the batch size. -/
def pushAndMaybeFlush (cfg : FullPipeConfig) (st : FullPipeState) (e : MEvent) :
    FullPipeState :=
  let buf := st.buffer ++ [e]
  if buf.length ≥ cfg.batchSize then
    { buffer := [], sent := st.sent ++ [buf], rngIdx := st.rngIdx }
  else { st with buffer := buf }

/-- Modelled from the spec: the head revision of `bufferEvent` (pipeline
file with sampling and session wiring, missing from the provided sources).
It applies the optional caller-supplied filter first (a rejected event is
dropped silently, consuming no draw); then maps the discriminant to a
sampling category via `eventTypeToSamplingType` and asks the sampler,
dropping the event when the draw fails; then attaches the current session
id when session tracking is enabled; finally appends to the buffer and
flushes when the batch size is reached.  An event whose discriminant maps
to no sampling category is kept without a draw. -/
def bufferEventFull (cfg : FullPipeConfig) (st : FullPipeState) (e : MEvent) :
    FullPipeState :=
  if applyFilter cfg.filter e then
    match eventTypeToSamplingType e.etype with
    | none => pushAndMaybeFlush cfg st e
    | some cat =>
        let d := samplerDraw (samplerRates cfg.sampling cat) cfg.rng st.rngIdx
        let st1 : FullPipeState := { st with rngIdx := d.2 }
        if d.1 then
          let e2 := if cfg.sessionEnabled then { e with sessionId := some cfg.sessionId } else e
          pushAndMaybeFlush cfg st1 e2
        else st1
  else st

/-! # Theorems -/

/-- C8: `shouldSample(category)` is deterministically true at rate ≥ 1,
deterministically false at rate ≤ 0, and otherwise true exactly when the
uniform draw is below the rate; a single-number configuration gives every
category that normalized rate except `identify`, which defaults to 1. -/
theorem sampler_spec (config : SamplingOption) (cat : SCat) (draw : ℚ) :
    (1 ≤ samplerRates config cat →
      shouldSample (samplerRates config cat) draw = true) ∧
    (samplerRates config cat ≤ 0 →
      shouldSample (samplerRates config cat) draw = false) ∧
    (0 < samplerRates config cat → samplerRates config cat < 1 →
      (shouldSample (samplerRates config cat) draw =
        decide (draw < samplerRates config cat))) ∧
    (∀ r : ℚ, samplerRates (.num r) cat =
      if cat = SCat.identify then 1 else normalizeRate r) := by
  refine ⟨?_, ?_, ?_, ?_⟩
  · intro h
    simp only [shouldSample, ge_iff_le]
    rw [if_pos h]
  · intro h
    simp only [shouldSample, ge_iff_le]
    rw [if_neg (by linarith), if_pos h]
  · intro h0 h1
    simp only [shouldSample, ge_iff_le]
    rw [if_neg (by linarith), if_neg (by linarith)]
  · intro r
    cases cat <;> simp [samplerRates]

/-- C8 witness: concrete instantiation of `sampler_spec` at the global rate
one half, category `vitals`, draw one quarter. -/
theorem sampler_spec_witness :
    0 < samplerRates (.num (1/2)) SCat.vitals ∧
    samplerRates (.num (1/2)) SCat.vitals < 1 ∧
    shouldSample (samplerRates (.num (1/2)) SCat.vitals) (1/4) =
      decide ((1/4 : ℚ) < samplerRates (.num (1/2)) SCat.vitals) := by
  refine ⟨by norm_num [samplerRates, normalizeRate], by norm_num [samplerRates, normalizeRate], ?_⟩
  exact (sampler_spec (.num (1/2)) SCat.vitals (1/4)).2.2.1
    (by norm_num [samplerRates, normalizeRate]) (by norm_num [samplerRates, normalizeRate])

/-- C10: `observe()` makes one random draw at initialization; a draw
strictly above the effective sample rate returns the no-op cleanup with
nothing installed and no event is ever delivered from that call, and with
the default sample rate of 1 a draw below 1 never takes the early exit. -/
theorem observe_sampleRate_spec (opts : ObserveOpts) (draw : ℚ) :
    (draw > opts.sampleRate.getD defaultSampleRate →
      observeInit opts draw = observeNoop) ∧
    (draw > opts.sampleRate.getD defaultSampleRate →
      ∀ batchSize ops, observeRun opts draw batchSize ops = []) ∧
    (opts.sampleRate = none → draw < 1 →
      (observeInit opts draw).globalObserverSet = true) := by
  refine ⟨?_, ?_, ?_⟩
  · intro h
    simp only [observeInit]
    rw [if_pos h]
  · intro h batchSize ops
    simp only [observeRun]
    rw [if_pos h]
  · intro hnone hd
    simp only [observeInit, hnone, Option.getD, defaultSampleRate]
    rw [if_neg (by simpa using not_lt.mpr (le_of_lt hd))]

/-- `flush()` preserves the concatenation of everything sent so far with
the current buffer: extract-and-clear neither duplicates nor loses
events. -/
theorem flushPipe_conserves (s : PipeState) :
    (flushPipe s).sent.flatten ++ (flushPipe s).buffer = s.sent.flatten ++ s.buffer := by
  by_cases h : s.buffer = []
  · simp [flushPipe, h]
  · simp [flushPipe, h]

/-- A single pipeline step appends exactly the pushed event (if any) to the
concatenation of sent batches and buffer. -/
theorem pipeStep_conserves (bs : ℕ) (s : PipeState) (op : PipeOp) :
    (pipeStep bs s op).sent.flatten ++ (pipeStep bs s op).buffer =
      s.sent.flatten ++ s.buffer ++ pushedEvents [op] := by
  cases op with
  | push e =>
      simp only [pipeStep]
      by_cases h : (s.buffer ++ [e]).length ≥ bs
      · rw [if_pos h, flushPipe_conserves]
        simp [pushedEvents]
      · rw [if_neg h]
        simp [pushedEvents]
  | flush =>
      simp only [pipeStep]
      rw [flushPipe_conserves]
      simp [pushedEvents]

/-- Conservation over a whole run, from an arbitrary starting state. -/
theorem runPipe_conserves (bs : ℕ) :
    ∀ (l : List PipeOp) (s : PipeState),
      (l.foldl (pipeStep bs) s).sent.flatten ++ (l.foldl (pipeStep bs) s).buffer =
        s.sent.flatten ++ s.buffer ++ pushedEvents l := by
  intro l
  induction l with
  | nil =>
      intro s
      simp [pushedEvents]
  | cons op rest ih =>
      intro s
      rw [List.foldl_cons, ih, pipeStep_conserves]
      cases op <;> simp [pushedEvents, List.filterMap_cons]

/-- C2: a flush on an empty buffer sends nothing; a flush on a non-empty
buffer extracts and clears the whole buffer in one synchronous step and
hands exactly that batch to the transport; over any operation sequence
(including a flush racing a pending delivery, and events buffered between
two flushes) the batches handed to the transport, concatenated with the
remaining buffer, are exactly the accepted events — so no event is
delivered twice and none is lost. -/
theorem flush_atomicity (bs : ℕ) (ops : List PipeOp) :
    ((runPipe bs ops).sent.flatten ++ (runPipe bs ops).buffer = pushedEvents ops) ∧
    (∀ s : PipeState, s.buffer = [] → flushPipe s = s) ∧
    (∀ s : PipeState, s.buffer ≠ [] →
      flushPipe s = { buffer := [], sent := s.sent ++ [s.buffer] }) ∧
    (∀ e : ℕ, ((runPipe bs ops).sent.flatten).count e + ((runPipe bs ops).buffer).count e =
      (pushedEvents ops).count e) := by
  have main := runPipe_conserves bs ops { buffer := [], sent := [] }
  simp only [List.flatten_nil, List.nil_append] at main
  refine ⟨main, ?_, ?_, ?_⟩
  · intro s h
    simp [flushPipe, h]
  · intro s h
    simp [flushPipe, h]
  · intro e
    have := congrArg (List.count e) main
    simpa [List.count_append] using this

/-- C2 witness: `flush_atomicity` on a concrete run — two events flushed,
a third buffered and flushed, a final flush on the empty buffer; plus the
two flush equations at concrete states. -/
theorem flush_atomicity_witness :
    ((runPipe 10 [PipeOp.push 1, PipeOp.push 2, PipeOp.flush, PipeOp.push 3,
        PipeOp.flush, PipeOp.flush]).sent.flatten ++
      (runPipe 10 [PipeOp.push 1, PipeOp.push 2, PipeOp.flush, PipeOp.push 3,
        PipeOp.flush, PipeOp.flush]).buffer =
      pushedEvents [PipeOp.push 1, PipeOp.push 2, PipeOp.flush, PipeOp.push 3,
        PipeOp.flush, PipeOp.flush]) ∧
    flushPipe { buffer := [], sent := [[1, 2]] } = { buffer := [], sent := [[1, 2]] } ∧
    flushPipe { buffer := [3], sent := [[1, 2]] } =
      { buffer := [], sent := [[1, 2], [3]] } := by
  have h := flush_atomicity 10 [PipeOp.push 1, PipeOp.push 2, PipeOp.flush, PipeOp.push 3,
    PipeOp.flush, PipeOp.flush]
  exact ⟨h.1, h.2.1 { buffer := [], sent := [[1, 2]] } rfl,
    h.2.2.1 { buffer := [3], sent := [[1, 2]] } (by decide)⟩

/-- Folding `max` over a list extended on the right. -/
theorem foldl_max_append (l : List ℚ) (a x : ℚ) :
    ((l ++ [x]).foldl max a) = max (l.foldl max a) x := by
  simp [List.foldl_append]

/-- The source's running-maximum update, as a `max`. -/
theorem if_gt_max (a b : ℚ) : (if a > b then a else b) = max b a := by
  rcases le_or_lt a b with h | h
  · rw [if_neg (not_lt.mpr h), max_eq_left h]
  · rw [if_pos h, max_eq_right (le_of_lt h)]

/-- `clsStep` ignores entries caused by recent user input. -/
theorem clsStep_input (a : CLSAccum) (e : ShiftEntry)
    (h : e.hadRecentInput = true) : clsStep a e = a := by
  simp [clsStep, h]

/-- `clsStep` on a qualifying entry that starts a new session window. -/
theorem clsStep_new (a : CLSAccum) (e : ShiftEntry)
    (h : e.hadRecentInput = false)
    (hc : a.sessionStart = -1 ∨ e.startTime - a.lastEntryTime > SESSION_GAP ∨
      e.startTime - a.sessionStart > SESSION_MAX) :
    clsStep a e =
      { sessionValue := e.value, sessionStart := e.startTime,
        lastEntryTime := e.startTime,
        maxSessionValue := max a.maxSessionValue e.value } := by
  simp only [clsStep, h]
  rw [if_neg (by simp), if_pos hc]
  simp [if_gt_max]

/-- `clsStep` on a qualifying entry that stays in the current window. -/
theorem clsStep_cont (a : CLSAccum) (e : ShiftEntry)
    (h : e.hadRecentInput = false)
    (hc : ¬ (a.sessionStart = -1 ∨ e.startTime - a.lastEntryTime > SESSION_GAP ∨
      e.startTime - a.sessionStart > SESSION_MAX)) :
    clsStep a e =
      { sessionValue := a.sessionValue + e.value, sessionStart := a.sessionStart,
        lastEntryTime := e.startTime,
        maxSessionValue := max a.maxSessionValue (a.sessionValue + e.value) } := by
  simp only [clsStep, h]
  rw [if_neg (by simp), if_neg hc]
  simp [if_gt_max]

/-- `specStep` ignores entries caused by recent user input. -/
theorem specStep_input (w : List SpecWindow × Option SpecWindow) (e : ShiftEntry)
    (h : e.hadRecentInput = true) : specStep w e = w := by
  simp [specStep, h]

/-- `specStep` on the first qualifying entry opens the first window. -/
theorem specStep_none (w : List SpecWindow × Option SpecWindow) (e : ShiftEntry)
    (h : e.hadRecentInput = false) (hw : w.2 = none) :
    specStep w e =
      (w.1, some { firstTime := e.startTime, lastTime := e.startTime, total := e.value }) := by
  simp only [specStep, hw]
  rw [if_neg (by simp [h])]

/-- `specStep` on a qualifying entry that opens a new window. -/
theorem specStep_new (w : List SpecWindow × Option SpecWindow) (e : ShiftEntry)
    (cw : SpecWindow) (h : e.hadRecentInput = false) (hw : w.2 = some cw)
    (hc : e.startTime - cw.lastTime > 1000 ∨ e.startTime - cw.firstTime > 5000) :
    specStep w e =
      (w.1 ++ [cw],
       some { firstTime := e.startTime, lastTime := e.startTime, total := e.value }) := by
  simp only [specStep, hw]
  rw [if_neg (by simp [h]), if_pos hc]

/-- `specStep` on a qualifying entry that stays in the current window. -/
theorem specStep_cont (w : List SpecWindow × Option SpecWindow) (e : ShiftEntry)
    (cw : SpecWindow) (h : e.hadRecentInput = false) (hw : w.2 = some cw)
    (hc : ¬ (e.startTime - cw.lastTime > 1000 ∨ e.startTime - cw.firstTime > 5000)) :
    specStep w e =
      (w.1, some { firstTime := cw.firstTime, lastTime := e.startTime,
                   total := cw.total + e.value }) := by
  simp only [specStep, hw]
  rw [if_neg (by simp [h]), if_neg hc]

/-- One entry preserves the CLS simulation relation. -/
theorem clsStep_spec (a : CLSAccum) (w : List SpecWindow × Option SpecWindow)
    (e : ShiftEntry) (hv : 0 ≤ e.value) (ht : 0 ≤ e.startTime)
    (hinv : ClsSpecInv a w) : ClsSpecInv (clsStep a e) (specStep w e) := by
  by_cases hbad : e.hadRecentInput = true
  · rw [clsStep_input a e hbad, specStep_input w e hbad]
    exact hinv
  · have hbad2 : e.hadRecentInput = false := by simpa using hbad
    cases hw : w.2 with
    | none =>
        have hinv2 : a = clsInit ∧ w.1 = [] := by
          simpa [ClsSpecInv, hw] using hinv
        obtain ⟨ha, hdone⟩ := hinv2
        subst ha
        rw [clsStep_new clsInit e hbad2 (Or.inl rfl), specStep_none w e hbad2 hw]
        exact ⟨rfl, rfl, rfl, ht, by simp [hdone, clsInit]⟩
    | some cw =>
        have hinv2 : a.sessionStart = cw.firstTime ∧ a.lastEntryTime = cw.lastTime ∧
            a.sessionValue = cw.total ∧ 0 ≤ cw.firstTime ∧
            a.maxSessionValue = max ((w.1.map SpecWindow.total).foldl max 0) cw.total := by
          simpa [ClsSpecInv, hw] using hinv
        obtain ⟨h1, h2, h3, h4, h5⟩ := hinv2
        have hne : ¬ a.sessionStart = -1 := by
          rw [h1]
          intro hc
          rw [hc] at h4
          linarith
        by_cases hnew : e.startTime - cw.lastTime > 1000 ∨ e.startTime - cw.firstTime > 5000
        · have hcond : a.sessionStart = -1 ∨ e.startTime - a.lastEntryTime > SESSION_GAP ∨
              e.startTime - a.sessionStart > SESSION_MAX := by
            rcases hnew with hg | hd
            · exact Or.inr (Or.inl (by rw [h2]; simpa [SESSION_GAP] using hg))
            · exact Or.inr (Or.inr (by rw [h1]; simpa [SESSION_MAX] using hd))
          rw [clsStep_new a e hbad2 hcond, specStep_new w e cw hbad2 hw hnew]
          refine ⟨rfl, rfl, rfl, ht, ?_⟩
          simp only [List.map_append, List.map_cons, List.map_nil]
          rw [foldl_max_append, h5]
        · have hcond : ¬ (a.sessionStart = -1 ∨ e.startTime - a.lastEntryTime > SESSION_GAP ∨
              e.startTime - a.sessionStart > SESSION_MAX) := by
            intro hc
            rcases hc with hc | hc | hc
            · exact hne hc
            · exact hnew (Or.inl (by rw [← h2]; simpa [SESSION_GAP] using hc))
            · exact hnew (Or.inr (by rw [← h1]; simpa [SESSION_MAX] using hc))
          rw [clsStep_cont a e hbad2 hcond, specStep_cont w e cw hbad2 hw hnew]
          refine ⟨h1, rfl, by rw [h3], h4, ?_⟩
          rw [h3, h5]
          rw [max_assoc, max_eq_right (by linarith : cw.total ≤ cw.total + e.value)]

/-- The CLS simulation relation is preserved by whole entry sequences. -/
theorem clsFold_spec (entries : List ShiftEntry) :
    ∀ (a : CLSAccum) (w : List SpecWindow × Option SpecWindow),
      (∀ e ∈ entries, 0 ≤ e.value) → (∀ e ∈ entries, 0 ≤ e.startTime) →
      ClsSpecInv a w → ClsSpecInv (entries.foldl clsStep a) (entries.foldl specStep w) := by
  induction entries with
  | nil =>
      intro a w _ _ h
      exact h
  | cons e rest ih =>
      intro a w hv ht h
      exact ih _ _ (fun x hx => hv x (List.mem_cons_of_mem e hx))
        (fun x hx => ht x (List.mem_cons_of_mem e hx))
        (clsStep_spec a w e (hv e (List.mem_cons_self e rest))
          (ht e (List.mem_cons_self e rest)) h)

/-- C3: entries flagged with recent user input are ignored, the remaining
entries are grouped into session windows exactly by the stated rule (new
window when there is no current window, the gap since the previous shift
exceeds 1000 ms, or the time since the window's first shift exceeds
5000 ms), and the accumulated CLS value is the maximum window total. -/
theorem cls_max_window_refinement (entries : List ShiftEntry)
    (hval : ∀ e ∈ entries, 0 ≤ e.value)
    (htime : ∀ e ∈ entries, 0 ≤ e.startTime) :
    (processEntries clsInit entries).maxSessionValue = maxWindowTotal entries := by
  have hinv0 : ClsSpecInv clsInit ([], none) := ⟨rfl, rfl⟩
  have h := clsFold_spec entries clsInit ([], none) hval htime hinv0
  simp only [processEntries, maxWindowTotal, specWindows]
  cases hw : (entries.foldl specStep ([], none)).2 with
  | none =>
      simp only [ClsSpecInv, hw] at h
      obtain ⟨ha, hdone⟩ := h
      rw [ha, hdone]
      simp [clsInit]
  | some cw =>
      simp only [ClsSpecInv, hw] at h
      obtain ⟨h1, h2, h3, h4, h5⟩ := h
      rw [h5]
      simp only [Option.toList_some, List.map_append, List.map_cons, List.map_nil]
      rw [foldl_max_append]

/-- C3 witness: `cls_max_window_refinement` on the claim's scenario —
shifts of 0.05 at t=0, 0.03 at t=200 (same window) and 0.2 at t=6000 (new
window) give a maximum window total of 0.2, not 0.28. -/
theorem cls_max_window_witness :
    (processEntries clsInit [⟨0, 1/20, false⟩, ⟨200, 3/100, false⟩,
        ⟨6000, 1/5, false⟩]).maxSessionValue =
      maxWindowTotal [⟨0, 1/20, false⟩, ⟨200, 3/100, false⟩, ⟨6000, 1/5, false⟩] ∧
    maxWindowTotal [⟨0, 1/20, false⟩, ⟨200, 3/100, false⟩, ⟨6000, 1/5, false⟩] = 1/5 := by
  constructor
  · refine cls_max_window_refinement _ ?_ ?_
    · intro e he
      simp only [List.mem_cons, List.not_mem_nil, or_false] at he
      rcases he with rfl | rfl | rfl <;> norm_num
    · intro e he
      simp only [List.mem_cons, List.not_mem_nil, or_false] at he
      rcases he with rfl | rfl | rfl <;> norm_num
  · norm_num [maxWindowTotal, specWindows, specStep]

/-- A session loaded from storage was the persisted one. -/
theorem loadSession_eq_some (cfg : MgrConfig) (st : MgrState) (s : Session)
    (h : loadSession cfg st = some s) : st.stored = some s := by
  unfold loadSession at h
  by_cases hs : cfg.storageOk
  · rwa [if_pos hs] at h
  · rw [if_neg hs] at h
    exact absurd h (by simp)

/-- One `getSessionId` call leaves a current session whose `lastActivity`
is the call time, returns that session's id, and that id's timestamp does
not lie in the future. -/
theorem getSessionId_step (cfg : MgrConfig) (st : MgrState) (now : Int) (rand : ℕ)
    (hwf : MgrWF st now) :
    ∃ s1 : Session, (getSessionId cfg st now rand).2.current = some s1 ∧
      (getSessionId cfg st now rand).1 = s1.id ∧
      s1.lastActivity = now ∧ s1.id.1 ≤ now := by
  have hreuse : ∀ s : Session, st.current = some s ∨ st.stored = some s →
      isExpired cfg s now = false →
      ∃ s1 : Session,
        ((s.id, { saveSession cfg st { s with lastActivity := now } with
            current := some { s with lastActivity := now } }) :
          SessionId × MgrState).2.current = some s1 ∧
        (s.id, ({ saveSession cfg st { s with lastActivity := now } with
            current := some { s with lastActivity := now } } : MgrState)).1 = s1.id ∧
        s1.lastActivity = now ∧ s1.id.1 ≤ now := by
    intro s hmem _
    refine ⟨{ s with lastActivity := now }, rfl, rfl, rfl, ?_⟩
    have h1 := hwf s hmem
    simp only
    calc s.id.1 = s.startedAt := h1.1
      _ ≤ s.lastActivity := h1.2.1
      _ ≤ now := h1.2.2
  simp only [getSessionId]
  cases hc : st.current with
  | some s =>
      simp only
      by_cases hexp : isExpired cfg s now = true
      · rw [if_pos hexp]
        exact ⟨_, rfl, rfl, rfl, le_refl now⟩
      · rw [if_neg hexp]
        exact hreuse s (Or.inl hc) (by simpa using hexp)
  | none =>
      simp only
      cases hl : loadSession cfg st with
      | none =>
          simp only
          exact ⟨_, rfl, rfl, rfl, le_refl now⟩
      | some s =>
          simp only
          by_cases hexp : isExpired cfg s now = true
          · rw [if_pos hexp]
            exact ⟨_, rfl, rfl, rfl, le_refl now⟩
          · rw [if_neg hexp]
            exact hreuse s (Or.inr (loadSession_eq_some cfg st s hl)) (by simpa using hexp)

/-- C7: from a well-formed manager state, a second `getSessionId` call
within the timeout returns the same id as the first (the first call having
advanced `lastActivity` to its call time), and a second call after the
timeout has elapsed returns a different id. -/
theorem session_stability (cfg : MgrConfig) (st : MgrState) (now1 now2 : Int)
    (r1 r2 : ℕ) (hwf : MgrWF st now1) (ht : 0 ≤ cfg.timeout) :
    (∃ s1 : Session, (getSessionId cfg st now1 r1).2.current = some s1 ∧
      s1.lastActivity = now1) ∧
    (now2 - now1 ≤ cfg.timeout →
      (getSessionId cfg (getSessionId cfg st now1 r1).2 now2 r2).1 =
        (getSessionId cfg st now1 r1).1) ∧
    (cfg.timeout < now2 - now1 →
      (getSessionId cfg (getSessionId cfg st now1 r1).2 now2 r2).1 ≠
        (getSessionId cfg st now1 r1).1) := by
  obtain ⟨s1, hcur, hid, hlast, hts⟩ := getSessionId_step cfg st now1 r1 hwf
  set p1 := getSessionId cfg st now1 r1 with hp1
  refine ⟨⟨s1, hcur, hlast⟩, ?_, ?_⟩
  · intro h
    have hexp : isExpired cfg s1 now2 = false := by
      simp only [isExpired, decide_eq_false_iff_not, not_lt, hlast]
      linarith
    simp only [getSessionId, hcur]
    rw [if_neg (by simp [hexp])]
    exact hid.symm
  · intro h
    have hexp : isExpired cfg s1 now2 = true := by
      simp only [isExpired, decide_eq_true_eq, hlast]
      linarith
    simp only [getSessionId, hcur]
    rw [if_pos (by simp [hexp])]
    intro hcontra
    rw [hid] at hcontra
    have h1 : ((now2 : Int), r2) = s1.id := by
      simpa [createNew, generateId] using hcontra
    have h2 : now2 = s1.id.1 := by
      rw [← h1]
    have h3 : now1 < now2 := by linarith
    rw [h2] at h3
    exact absurd h3 (not_lt.mpr hts)

/-- C7 witness: `session_stability` from the empty manager state at time 5
with timeout 1000 — a second call at time 805 keeps the id, a second call
at time 2000 changes it. -/
theorem session_stability_witness :
    (∃ s1 : Session,
      (getSessionId ⟨1000, true⟩ ⟨none, none⟩ 5 11).2.current = some s1 ∧
      s1.lastActivity = 5) ∧
    (getSessionId ⟨1000, true⟩ (getSessionId ⟨1000, true⟩ ⟨none, none⟩ 5 11).2 805 12).1 =
      (getSessionId ⟨1000, true⟩ ⟨none, none⟩ 5 11).1 ∧
    (getSessionId ⟨1000, true⟩ (getSessionId ⟨1000, true⟩ ⟨none, none⟩ 5 11).2 2000 12).1 ≠
      (getSessionId ⟨1000, true⟩ ⟨none, none⟩ 5 11).1 := by
  have hwf : MgrWF ⟨none, none⟩ 5 := by
    intro s hs
    simp at hs
  have h1 := session_stability ⟨1000, true⟩ ⟨none, none⟩ 5 805 11 12 hwf (by norm_num)
  have h2 := session_stability ⟨1000, true⟩ ⟨none, none⟩ 5 2000 11 12 hwf (by norm_num)
  exact ⟨h1.1, h1.2.1 (by norm_num), h2.2.2 (by norm_num)⟩

/-- Every drop inside `sendChunk` (single oversized event, or chunk-depth
limit) emits a console error. -/
theorem sendChunk_dropped_console (m : ℕ) (avail : Bool) (ok : List ℕ → Bool) :
    ∀ gas events, (sendChunk m avail ok gas events).dropped ≠ [] →
      0 < (sendChunk m avail ok gas events).consoleErrors := by
  intro gas
  induction gas with
  | zero =>
      intro events h
      cases events with
      | nil => simp [sendChunk, BeaconResult.empty] at h
      | cons e es => simp [sendChunk]
  | succ g ih =>
      intro events h
      cases events with
      | nil => simp [sendChunk, BeaconResult.empty] at h
      | cons e es =>
        simp only [sendChunk] at h ⊢
        by_cases h1 : payloadLen (e :: es) > m
        · rw [if_pos h1] at h ⊢
          by_cases h2 : (e :: es).length = 1
          · rw [if_pos h2]
            simp
          · rw [if_neg h2] at h ⊢
            simp only [BeaconResult.append] at h ⊢
            by_cases hd1 :
                (sendChunk m avail ok g ((e :: es).take ((e :: es).length / 2))).dropped = []
            · have hd2 :
                  (sendChunk m avail ok g ((e :: es).drop ((e :: es).length / 2))).dropped ≠ [] := by
                intro hc
                exact h (by rw [hd1, hc]; rfl)
              exact Nat.add_pos_right _ (ih _ hd2)
            · exact Nat.add_pos_left (ih _ hd1) _
        · rw [if_neg h1] at h ⊢
          by_cases h3 : avail
          · rw [if_pos h3] at h
            simp at h
          · rw [if_neg h3] at h
            simp [BeaconResult.empty] at h

/-- When every beacon hand-off succeeds, `sendChunk` never invokes the
error callback — in particular not for its drops. -/
theorem sendChunk_onError_zero (m : ℕ) (avail : Bool) (ok : List ℕ → Bool)
    (hok : ∀ c, ok c = true) :
    ∀ gas events, (sendChunk m avail ok gas events).onErrorCalls = 0 := by
  intro gas
  induction gas with
  | zero =>
      intro events
      cases events with
      | nil => rfl
      | cons e es => rfl
  | succ g ih =>
      intro events
      cases events with
      | nil => rfl
      | cons e es =>
        simp only [sendChunk]
        by_cases h1 : payloadLen (e :: es) > m
        · rw [if_pos h1]
          by_cases h2 : (e :: es).length = 1
          · rw [if_pos h2]
          · rw [if_neg h2]
            simp only [BeaconResult.append, ih]
        · rw [if_neg h1]
          by_cases h3 : avail
          · rw [if_pos h3]
            simp [hok]
          · rw [if_neg h3]
            rfl

/-- With enough recursion budget (fuel `gas + 1`, batch length at most
`2 ^ gas`) and every single event within the ceiling, `sendChunk` delivers
every event, drops nothing, and every delivered payload is within the
ceiling. -/
theorem sendChunk_complete (m : ℕ) (ok : List ℕ → Bool) :
    ∀ (gas : ℕ) (events : List ℕ), events ≠ [] →
      (∀ e ∈ events, payloadLen [e] ≤ m) → events.length ≤ 2 ^ gas →
      ((sendChunk m true ok (gas + 1) events).delivered.flatten = events ∧
       (sendChunk m true ok (gas + 1) events).dropped = [] ∧
       1 ≤ (sendChunk m true ok (gas + 1) events).delivered.length ∧
       ∀ c ∈ (sendChunk m true ok (gas + 1) events).delivered, payloadLen c ≤ m) := by
  intro gas
  induction gas with
  | zero =>
      intro events hne hsingle hlen
      cases events with
      | nil => exact absurd rfl hne
      | cons e es =>
          cases es with
          | cons e2 rest => simp at hlen
          | nil =>
              have hp : payloadLen [e] ≤ m := hsingle e (by simp)
              simp only [sendChunk]
              rw [if_neg (by omega)]
              simp
              exact hp
  | succ g ih =>
      intro events hne hsingle hlen
      cases events with
      | nil => exact absurd rfl hne
      | cons e es =>
          by_cases hover : payloadLen (e :: es) > m
          · have hlen1 : ¬ (e :: es).length = 1 := by
              intro h1
              cases es with
              | nil => exact absurd hover (not_lt.mpr (hsingle e (by simp)))
              | cons e2 rest => simp at h1
            have hlen2 : 2 ≤ (e :: es).length := by
              have := List.length_pos.mpr (List.cons_ne_nil e es)
              omega
            simp only [sendChunk]
            rw [if_pos hover, if_neg hlen1]
            have htl : ((e :: es).take ((e :: es).length / 2)).length = (e :: es).length / 2 := by
              rw [List.length_take]
              omega
            have hdl : ((e :: es).drop ((e :: es).length / 2)).length =
                (e :: es).length - (e :: es).length / 2 := by
              rw [List.length_drop]
            have htne : (e :: es).take ((e :: es).length / 2) ≠ [] := by
              apply List.ne_nil_of_length_pos
              omega
            have hdne : (e :: es).drop ((e :: es).length / 2) ≠ [] := by
              apply List.ne_nil_of_length_pos
              omega
            have hpow : (e :: es).length ≤ 2 * 2 ^ g := by
              have : (2 : ℕ) ^ (g + 1) = 2 * 2 ^ g := by ring
              omega
            obtain ⟨ih1a, ih1b, ih1c, ih1d⟩ := ih ((e :: es).take ((e :: es).length / 2)) htne
              (fun x hx => hsingle x (List.take_subset _ _ hx)) (by omega)
            obtain ⟨ih2a, ih2b, ih2c, ih2d⟩ := ih ((e :: es).drop ((e :: es).length / 2)) hdne
              (fun x hx => hsingle x (List.drop_subset _ _ hx)) (by omega)
            refine ⟨?_, ?_, ?_, ?_⟩
            · simp only [BeaconResult.append, List.flatten_append, ih1a, ih2a]
              exact List.take_append_drop _ _
            · simp only [BeaconResult.append, ih1b, ih2b, List.append_nil]
            · simp only [BeaconResult.append, List.length_append]
              omega
            · intro c hc
              simp only [BeaconResult.append, List.mem_append] at hc
              cases hc with
              | inl h => exact ih1d c h
              | inr h => exact ih2d c h
          · simp only [sendChunk]
            rw [if_neg hover]
            simp
            omega

/-- C6: a non-empty batch over the ceiling, each of whose events is
individually within the ceiling and whose length fits the split-depth
budget, is bisected into at least two beacon deliveries that cover all
events in order, each delivered payload is within the ceiling, and nothing
is dropped. -/
theorem beacon_chunking_spec (m : ℕ) (ok : List ℕ → Bool) (events : List ℕ)
    (hne : events ≠ [])
    (hover : payloadLen events > m)
    (hsingle : ∀ e ∈ events, payloadLen [e] ≤ m)
    (hlen : events.length ≤ 2 ^ (MAX_CHUNK_DEPTH - 1)) :
    2 ≤ (beaconSend m true true ok events).delivered.length ∧
    (beaconSend m true true ok events).delivered.flatten = events ∧
    (beaconSend m true true ok events).dropped = [] ∧
    (∀ c ∈ (beaconSend m true true ok events).delivered, payloadLen c ≤ m) := by
  have hb : beaconSend m true true ok events = sendChunk m true ok (19 + 1) events := by
    simp only [beaconSend, if_neg hne, MAX_CHUNK_DEPTH]
    rfl
  rw [hb]
  cases events with
  | nil => exact absurd rfl hne
  | cons e es =>
      have hlen1 : ¬ (e :: es).length = 1 := by
        intro h1
        cases es with
        | nil => exact absurd hover (not_lt.mpr (hsingle e (by simp)))
        | cons e2 rest => simp at h1
      have hlen2 : 2 ≤ (e :: es).length := by
        have := List.length_pos.mpr (List.cons_ne_nil e es)
        omega
      have hlen19 : (e :: es).length ≤ 524288 := by
        have h := hlen
        norm_num [MAX_CHUNK_DEPTH] at h
        exact h
      simp only [sendChunk]
      rw [if_pos hover, if_neg hlen1]
      have htl : ((e :: es).take ((e :: es).length / 2)).length = (e :: es).length / 2 := by
        rw [List.length_take]
        omega
      have hdl : ((e :: es).drop ((e :: es).length / 2)).length =
          (e :: es).length - (e :: es).length / 2 := by
        rw [List.length_drop]
      have htne : (e :: es).take ((e :: es).length / 2) ≠ [] := by
        apply List.ne_nil_of_length_pos
        omega
      have hdne : (e :: es).drop ((e :: es).length / 2) ≠ [] := by
        apply List.ne_nil_of_length_pos
        omega
      simp only [List.length_cons] at hlen2 hlen19 htl hdl
      obtain ⟨ih1a, ih1b, ih1c, ih1d⟩ := sendChunk_complete m ok 18
        ((e :: es).take ((e :: es).length / 2)) htne
        (fun x hx => hsingle x (List.take_subset _ _ hx))
        (by simp only [htl, List.length_cons]; norm_num; omega)
      obtain ⟨ih2a, ih2b, ih2c, ih2d⟩ := sendChunk_complete m ok 18
        ((e :: es).drop ((e :: es).length / 2)) hdne
        (fun x hx => hsingle x (List.drop_subset _ _ hx))
        (by simp only [hdl, List.length_cons]; norm_num; omega)
      simp only [show (18 : ℕ) + 1 = 19 from rfl] at ih1a ih1b ih1c ih1d ih2a ih2b ih2c ih2d
      refine ⟨?_, ?_, ?_, ?_⟩
      · simp only [BeaconResult.append, List.length_append]
        omega
      · simp only [BeaconResult.append, List.flatten_append, ih1a, ih2a]
        exact List.take_append_drop _ _
      · simp only [BeaconResult.append, ih1b, ih2b, List.append_nil]
      · intro c hc
        simp only [BeaconResult.append, List.mem_append] at hc
        cases hc with
        | inl h => exact ih1d c h
        | inr h => exact ih2d c h

/-- C6 witness: `beacon_chunking_spec` on a batch of four events of
serialized length 30 against a ceiling of 80 — the batch payload is 125,
so it splits into two deliveries of payload 63 each, each within the
ceiling. -/
theorem beacon_chunking_witness :
    2 ≤ (beaconSend 80 true true (fun _ => true) [30, 30, 30, 30]).delivered.length ∧
    (beaconSend 80 true true (fun _ => true) [30, 30, 30, 30]).delivered.flatten =
      [30, 30, 30, 30] ∧
    (beaconSend 80 true true (fun _ => true) [30, 30, 30, 30]).dropped = [] ∧
    (∀ c ∈ (beaconSend 80 true true (fun _ => true) [30, 30, 30, 30]).delivered,
      payloadLen c ≤ 80) :=
  beacon_chunking_spec 80 (fun _ => true) [30, 30, 30, 30] (by decide) (by decide)
    (by decide) (by norm_num [MAX_CHUNK_DEPTH])

/-- C5 counterexample: a single event whose serialization (length 100)
exceeds the ceiling (10) is dropped, and the configured error callback is
never invoked for the drop. -/
theorem beacon_drop_no_callback :
    (beaconSend 10 true true (fun _ => true) [100]).dropped ≠ [] ∧
    (beaconSend 10 true true (fun _ => true) [100]).onErrorCalls = 0 := by
  constructor
  · decide
  · rfl

/-- C5 amended: events dropped by the beacon transport (single event over
the ceiling, or split depth exhausted) are reported through a console
error, not through the configured error callback; the error callback fires
only when the beacon primitive itself reports failure. -/
theorem beacon_drop_console_spec (m : ℕ) (nav avail : Bool) (ok : List ℕ → Bool)
    (events : List ℕ) :
    ((beaconSend m nav avail ok events).dropped ≠ [] →
      0 < (beaconSend m nav avail ok events).consoleErrors) ∧
    ((∀ c, ok c = true) → (beaconSend m nav avail ok events).onErrorCalls = 0) := by
  constructor
  · intro h
    by_cases he : events = []
    · simp [beaconSend, he, BeaconResult.empty] at h
    · by_cases hn : nav
      · simp only [beaconSend, if_neg he, if_pos hn] at h ⊢
        exact sendChunk_dropped_console m avail ok MAX_CHUNK_DEPTH events h
      · simp [beaconSend, he, hn, BeaconResult.empty] at h
  · intro hok
    by_cases he : events = []
    · simp [beaconSend, he, BeaconResult.empty]
    · by_cases hn : nav
      · simp only [beaconSend, if_neg he, if_pos hn]
        exact sendChunk_onError_zero m avail ok hok MAX_CHUNK_DEPTH events
      · simp [beaconSend, he, hn, BeaconResult.empty]

/-- C5 witness: `beacon_drop_console_spec` at the dropping input — the
drop produces a console error and zero error-callback invocations. -/
theorem beacon_drop_console_witness :
    0 < (beaconSend 10 true true (fun _ => true) [100]).consoleErrors ∧
    (beaconSend 10 true true (fun _ => true) [100]).onErrorCalls = 0 :=
  ⟨(beacon_drop_console_spec 10 true true (fun _ => true) [100]).1 (by decide),
   (beacon_drop_console_spec 10 true true (fun _ => true) [100]).2 (fun c => rfl)⟩

/-- `reportLCP` preserves the at-most-once invariant. -/
theorem reportLCP_inv (s : LCPObs) (h1 : s.reports.length ≤ 1)
    (h2 : s.hasReported = false → s.reports = []) :
    (reportLCP s).reports.length ≤ 1 ∧
    ((reportLCP s).hasReported = false → (reportLCP s).reports = []) := by
  unfold reportLCP
  by_cases hc : s.lcpValue > 0 ∧ ¬ s.hasReported = true
  · rw [if_pos hc]
    constructor
    · simp [h2 (by simpa using hc.2)]
    · intro hfalse
      simp at hfalse
  · rw [if_neg hc]
    exact ⟨h1, h2⟩

/-- Each LCP observer step preserves the at-most-once invariant. -/
theorem lcpObsStep_inv (s : LCPObs) (op : LCPOp) (h1 : s.reports.length ≤ 1)
    (h2 : s.hasReported = false → s.reports = []) :
    (lcpObsStep s op).reports.length ≤ 1 ∧
    ((lcpObsStep s op).hasReported = false → (lcpObsStep s op).reports = []) := by
  by_cases hs : s.stopped = true
  · simp only [lcpObsStep, hs, if_pos]
    exact ⟨h1, h2⟩
  · have hs2 : s.stopped = false := by simpa using hs
    cases op with
    | entries es =>
        simp only [lcpObsStep, hs2]
        cases hl : es.getLast? with
        | none => exact ⟨h1, h2⟩
        | some v => exact ⟨h1, h2⟩
    | input =>
        simp only [lcpObsStep, hs2]
        simpa using reportLCP_inv s h1 h2
    | hidden =>
        simp only [lcpObsStep, hs2]
        simpa using reportLCP_inv s h1 h2
    | visible =>
        simp only [lcpObsStep, hs2]
        exact ⟨h1, h2⟩
    | teardown =>
        simp only [lcpObsStep, hs2]
        by_cases hc : ¬ s.hasReported = true ∧ s.lcpValue > 0
        · rw [if_pos hc]
          simpa using reportLCP_inv s h1 h2
        · rw [if_neg hc]
          exact ⟨h1, h2⟩

/-- The LCP at-most-once invariant holds along any trace. -/
theorem lcpFold_inv (ops : List LCPOp) :
    ∀ s : LCPObs, s.reports.length ≤ 1 → (s.hasReported = false → s.reports = []) →
      ((ops.foldl lcpObsStep s).reports.length ≤ 1 ∧
       ((ops.foldl lcpObsStep s).hasReported = false →
         (ops.foldl lcpObsStep s).reports = [])) := by
  induction ops with
  | nil =>
      intro s h1 h2
      exact ⟨h1, h2⟩
  | cons op rest ih =>
      intro s h1 h2
      obtain ⟨g1, g2⟩ := lcpObsStep_inv s op h1 h2
      exact ih (lcpObsStep s op) g1 g2

/-- `reportINP` preserves the at-most-once invariant. -/
theorem reportINP_inv (s : INPObs) (h1 : s.reports.length ≤ 1)
    (h2 : s.hasReported = false → s.reports = []) :
    (reportINP s).reports.length ≤ 1 ∧
    ((reportINP s).hasReported = false → (reportINP s).reports = []) := by
  unfold reportINP
  by_cases hc : s.maxINP > 0 ∧ ¬ s.hasReported = true
  · rw [if_pos hc]
    constructor
    · simp [h2 (by simpa using hc.2)]
    · intro hfalse
      simp at hfalse
  · rw [if_neg hc]
    exact ⟨h1, h2⟩

/-- The INP entry loop only touches `processedInteractions` and `maxINP`. -/
theorem inpEntryStep_proj (s : INPObs) (e : INPEntry) :
    (inpEntryStep s e).reports = s.reports ∧
    (inpEntryStep s e).hasReported = s.hasReported ∧
    (inpEntryStep s e).tornDown = s.tornDown ∧
    (inpEntryStep s e).prevReportedValue = s.prevReportedValue := by
  unfold inpEntryStep
  by_cases h0 : e.interactionId = 0
  · rw [if_pos h0]
    exact ⟨rfl, rfl, rfl, rfl⟩
  · rw [if_neg h0]
    by_cases hm : e.interactionId ∈ s.processedInteractions
    · rw [if_pos hm]
      exact ⟨rfl, rfl, rfl, rfl⟩
    · rw [if_neg hm]
      exact ⟨rfl, rfl, rfl, rfl⟩

/-- The INP entry loop over a batch only touches `processedInteractions`
and `maxINP`. -/
theorem inpEntryFold_proj (es : List INPEntry) :
    ∀ s : INPObs, ((es.foldl inpEntryStep s).reports = s.reports ∧
      (es.foldl inpEntryStep s).hasReported = s.hasReported ∧
      (es.foldl inpEntryStep s).tornDown = s.tornDown ∧
      (es.foldl inpEntryStep s).prevReportedValue = s.prevReportedValue) := by
  induction es with
  | nil =>
      intro s
      exact ⟨rfl, rfl, rfl, rfl⟩
  | cons e rest ih =>
      intro s
      obtain ⟨p1, p2, p3, p4⟩ := inpEntryStep_proj s e
      obtain ⟨q1, q2, q3, q4⟩ := ih (inpEntryStep s e)
      exact ⟨by rw [List.foldl_cons, q1, p1], by rw [List.foldl_cons, q2, p2],
        by rw [List.foldl_cons, q3, p3], by rw [List.foldl_cons, q4, p4]⟩

/-- Each INP observer step preserves the at-most-once invariant. -/
theorem inpObsStep_inv (s : INPObs) (op : INPOp) (h1 : s.reports.length ≤ 1)
    (h2 : s.hasReported = false → s.reports = []) :
    (inpObsStep s op).reports.length ≤ 1 ∧
    ((inpObsStep s op).hasReported = false → (inpObsStep s op).reports = []) := by
  by_cases hs : s.tornDown = true
  · simp only [inpObsStep, hs, if_pos]
    exact ⟨h1, h2⟩
  · have hs2 : s.tornDown = false := by simpa using hs
    cases op with
    | entries es =>
        simp only [inpObsStep, hs2]
        obtain ⟨q1, q2, q3, q4⟩ := inpEntryFold_proj es s
        rw [if_neg (by simp [hs2])]
        rw [q1, q2]
        exact ⟨h1, h2⟩
    | hidden =>
        simp only [inpObsStep, hs2]
        rw [if_neg (by simp [hs2])]
        exact reportINP_inv s h1 h2
    | visible =>
        simp only [inpObsStep, hs2]
        rw [if_neg (by simp [hs2])]
        exact ⟨h1, h2⟩
    | pagehide =>
        simp only [inpObsStep, hs2]
        rw [if_neg (by simp [hs2])]
        exact reportINP_inv s h1 h2
    | teardown =>
        simp only [inpObsStep, hs2]
        rw [if_neg (by simp [hs2])]
        by_cases hc : ¬ s.hasReported = true ∧ s.maxINP > 0
        · rw [if_pos (by simpa using hc)]
          exact reportINP_inv { s with tornDown := true } h1 h2
        · rw [if_neg (by simpa using hc)]
          exact ⟨h1, h2⟩

/-- The INP at-most-once invariant holds along any trace. -/
theorem inpFold_inv (ops : List INPOp) :
    ∀ s : INPObs, s.reports.length ≤ 1 → (s.hasReported = false → s.reports = []) →
      ((ops.foldl inpObsStep s).reports.length ≤ 1 ∧
       ((ops.foldl inpObsStep s).hasReported = false →
         (ops.foldl inpObsStep s).reports = [])) := by
  induction ops with
  | nil =>
      intro s h1 h2
      exact ⟨h1, h2⟩
  | cons op rest ih =>
      intro s h1 h2
      obtain ⟨g1, g2⟩ := inpObsStep_inv s op h1 h2
      exact ih (inpObsStep s op) g1 g2

/-- C1 counterexample: the CLS observer reports twice in one lifetime —
entries, a hidden trigger, further entries, and a second hidden trigger
produce two callback invocations (`reportCLS` has no `hasReported` guard,
only a value-changed check). -/
theorem observeCLS_double_report :
    (runCLS [CLSOp.entries [⟨0, 1, false⟩], CLSOp.hidden,
      CLSOp.entries [⟨100, 1, false⟩], CLSOp.hidden]).reports = [1, 2] ∧
    ¬ (runCLS [CLSOp.entries [⟨0, 1, false⟩], CLSOp.hidden,
      CLSOp.entries [⟨100, 1, false⟩], CLSOp.hidden]).reports.length ≤ 1 := by
  constructor
  · norm_num [runCLS, clsObsStep, clsObsInit, reportCLS, processEntries, clsStep,
      clsInit, SESSION_GAP, SESSION_MAX]
  · norm_num [runCLS, clsObsStep, clsObsInit, reportCLS, processEntries, clsStep,
      clsInit, SESSION_GAP, SESSION_MAX]

/-- C1 amended: the LCP and INP observers invoke their callback at most
once per observer lifetime over any trace; the CLS observer can report
again after later entries raise the accumulated value, but for each of the
three observers, processing qualifying entries followed by a single one of
its finalization triggers invokes the callback exactly once, with the
maximum accumulated value (last paint time for LCP). -/
theorem observers_finalize_amended :
    (∀ ops : List LCPOp, (runLCP ops).reports.length ≤ 1) ∧
    (∀ ops : List INPOp, (runINP ops).reports.length ≤ 1) ∧
    (∀ (es : List ShiftEntry) (trig : CLSOp),
      trig = CLSOp.hidden ∨ trig = CLSOp.pagehide ∨ trig = CLSOp.teardown →
      0 < (processEntries clsInit es).maxSessionValue →
      (runCLS [CLSOp.entries es, trig]).reports =
        [(processEntries clsInit es).maxSessionValue]) ∧
    (∀ (es : List ℚ) (v : ℚ) (trig : LCPOp),
      trig = LCPOp.input ∨ trig = LCPOp.hidden ∨ trig = LCPOp.teardown →
      es.getLast? = some v → 0 < v →
      (runLCP [LCPOp.entries es, trig]).reports = [v]) ∧
    (∀ (es : List INPEntry) (trig : INPOp),
      trig = INPOp.hidden ∨ trig = INPOp.pagehide ∨ trig = INPOp.teardown →
      0 < (runINP [INPOp.entries es]).maxINP →
      (runINP [INPOp.entries es, trig]).reports =
        [(runINP [INPOp.entries es]).maxINP]) := by
  refine ⟨?_, ?_, ?_, ?_, ?_⟩
  · intro ops
    exact (lcpFold_inv ops lcpObsInit (by simp [lcpObsInit]) (fun _ => rfl)).1
  · intro ops
    exact (inpFold_inv ops inpObsInit (by simp [inpObsInit]) (fun _ => rfl)).1
  · intro es trig htrig hpos
    have hstep1 : runCLS [CLSOp.entries es, trig] =
        clsObsStep { clsObsInit with accum := processEntries clsInit es } trig := rfl
    rw [hstep1]
    have hne : (processEntries clsInit es).maxSessionValue ≠ 0 := ne_of_gt hpos
    rcases htrig with rfl | rfl | rfl
    · simp only [clsObsStep, clsObsInit, reportCLS]
      rw [if_neg (by simp), if_pos (by exact ⟨hpos, hne⟩)]
      simp
    · simp only [clsObsStep, clsObsInit, reportCLS]
      rw [if_neg (by simp), if_pos (by exact ⟨hpos, hne⟩)]
      simp
    · simp only [clsObsStep, clsObsInit]
      rw [if_neg (by simp), if_pos (by exact ⟨by simp, hpos⟩)]
      simp only [reportCLS]
      rw [if_pos (by exact ⟨hpos, hne⟩)]
      simp
  · intro es v trig htrig hlast hv
    have hstep1 : runLCP [LCPOp.entries es, trig] =
        lcpObsStep { lcpObsInit with lcpValue := v } trig := by
      simp [runLCP, lcpObsStep, lcpObsInit, hlast]
    rw [hstep1]
    rcases htrig with rfl | rfl | rfl
    · simp only [lcpObsStep, lcpObsInit, reportLCP]
      rw [if_neg (by simp), if_pos (by exact ⟨hv, by simp⟩)]
      simp
    · simp only [lcpObsStep, lcpObsInit, reportLCP]
      rw [if_neg (by simp), if_pos (by exact ⟨hv, by simp⟩)]
      simp
    · simp only [lcpObsStep, lcpObsInit]
      rw [if_neg (by simp), if_pos (by exact ⟨by simp, hv⟩)]
      simp only [reportLCP]
      rw [if_pos (by exact ⟨hv, by simp⟩)]
      simp
  · intro es trig htrig hpos
    obtain ⟨q1, q2, q3, q4⟩ := inpEntryFold_proj es inpObsInit
    have hrun : runINP [INPOp.entries es] = es.foldl inpEntryStep inpObsInit := by
      simp [runINP, inpObsStep, inpObsInit]
    rw [hrun] at hpos ⊢
    have hstep1 : runINP [INPOp.entries es, trig] =
        inpObsStep (es.foldl inpEntryStep inpObsInit) trig := by
      simp [runINP, inpObsStep, inpObsInit]
    rw [hstep1]
    have htd : (es.foldl inpEntryStep inpObsInit).tornDown = false := by
      rw [q3]
      rfl
    have hhr : (es.foldl inpEntryStep inpObsInit).hasReported = false := by
      rw [q2]
      rfl
    rcases htrig with rfl | rfl | rfl
    · simp only [inpObsStep]
      rw [if_neg (by simp [htd])]
      simp only [reportINP]
      rw [if_pos (by exact ⟨hpos, by simp [hhr]⟩)]
      simp [q1]
      rfl
    · simp only [inpObsStep]
      rw [if_neg (by simp [htd])]
      simp only [reportINP]
      rw [if_pos (by exact ⟨hpos, by simp [hhr]⟩)]
      simp [q1]
      rfl
    · simp only [inpObsStep]
      rw [if_neg (by simp [htd])]
      rw [if_pos (by exact ⟨by simp [hhr], hpos⟩)]
      simp only [reportINP]
      rw [if_pos (by exact ⟨hpos, by simp [hhr]⟩)]
      simp [q1]
      rfl

/-- C1 witness: `observers_finalize_amended` at concrete traces — an LCP
and an INP trace reporting at most once, and one exactly-once finalization
for each observer. -/
theorem observers_finalize_witness :
    (runLCP [LCPOp.entries [2500], LCPOp.hidden, LCPOp.teardown]).reports.length ≤ 1 ∧
    (runINP [INPOp.entries [⟨5, 300⟩], INPOp.hidden, INPOp.pagehide]).reports.length ≤ 1 ∧
    (runCLS [CLSOp.entries [⟨0, 1, false⟩, ⟨200, 1, false⟩], CLSOp.hidden]).reports =
      [(processEntries clsInit [⟨0, 1, false⟩, ⟨200, 1, false⟩]).maxSessionValue] ∧
    (runLCP [LCPOp.entries [2500], LCPOp.input]).reports = [2500] ∧
    (runINP [INPOp.entries [⟨5, 300⟩], INPOp.pagehide]).reports =
      [(runINP [INPOp.entries [⟨5, 300⟩]]).maxINP] := by
  refine ⟨observers_finalize_amended.1 _, observers_finalize_amended.2.1 _, ?_, ?_, ?_⟩
  · exact observers_finalize_amended.2.2.1 [⟨0, 1, false⟩, ⟨200, 1, false⟩] CLSOp.hidden
      (Or.inl rfl)
      (by norm_num [processEntries, clsStep, clsInit, SESSION_GAP, SESSION_MAX])
  · exact observers_finalize_amended.2.2.2.1 [2500] 2500 LCPOp.input (Or.inl rfl) rfl
      (by norm_num)
  · exact observers_finalize_amended.2.2.2.2 [⟨5, 300⟩] INPOp.pagehide (Or.inr (Or.inl rfl))
      (by norm_num [runINP, inpObsStep, inpObsInit, inpEntryStep])

/-- C9 counterexample: with no active pipeline (no emitter wired), a custom
metric event is queued in the pending buffer, not discarded — and it is
delivered later, when an emitter is registered. -/
theorem metric_queues_when_no_pipeline :
    (metricEmitEvent { emitterSet := false, pendingEvents := [], emitted := [] } 7).pendingEvents
        = [7] ∧
    (setMetricEmitter
        (metricEmitEvent { emitterSet := false, pendingEvents := [], emitted := [] } 7)
        true).emitted = [7] := by
  constructor
  · rfl
  · rfl

/-- C9 amended: when no pipeline is active, a state-machine transition
event is discarded outright, while a custom metric event is queued in the
bounded pending buffer (capacity 100, new events dropped when it is full)
and handed over when a pipeline next registers its emitter. -/
theorem no_pipeline_amended :
    (∀ (t : Bool) (e : ℕ), machineEmitTransition t false e = []) ∧
    (∀ (g : MetricGlobal) (e : ℕ), g.emitterSet = false →
      g.pendingEvents.length < MAX_PENDING_EVENTS →
      metricEmitEvent g e = { g with pendingEvents := g.pendingEvents ++ [e] }) ∧
    (∀ (g : MetricGlobal) (e : ℕ), g.emitterSet = false →
      MAX_PENDING_EVENTS ≤ g.pendingEvents.length →
      metricEmitEvent g e = g) ∧
    (∀ g : MetricGlobal, g.pendingEvents ≠ [] →
      setMetricEmitter g true =
        { emitterSet := true, pendingEvents := [], emitted := g.emitted ++ g.pendingEvents }) := by
  refine ⟨?_, ?_, ?_, ?_⟩
  · intro t e
    cases t <;> simp [machineEmitTransition]
  · intro g e hset hlen
    simp only [metricEmitEvent, hset]
    rw [if_neg (by simp), if_neg (by omega)]
  · intro g e hset hlen
    simp only [metricEmitEvent, hset]
    rw [if_neg (by simp), if_pos (by omega)]
  · intro g hne
    simp only [setMetricEmitter]
    rw [if_pos ⟨trivial, hne⟩]

/-- C9 witness: `no_pipeline_amended` at concrete inputs — a transition
event with no observer vanishes, a metric event is queued behind an
existing one, and registering an emitter flushes the queue. -/
theorem no_pipeline_witness :
    machineEmitTransition true false 3 = [] ∧
    metricEmitEvent { emitterSet := false, pendingEvents := [1], emitted := [] } 2 =
      { emitterSet := false, pendingEvents := [1, 2], emitted := [] } ∧
    setMetricEmitter { emitterSet := false, pendingEvents := [1, 2], emitted := [] } true =
      { emitterSet := true, pendingEvents := [], emitted := [1, 2] } := by
  refine ⟨no_pipeline_amended.1 true 3, ?_, ?_⟩
  · have h := no_pipeline_amended.2.1
      { emitterSet := false, pendingEvents := [1], emitted := [] } 2 rfl (by decide)
    simpa using h
  · have h := no_pipeline_amended.2.2.2
      { emitterSet := false, pendingEvents := [1, 2], emitted := [] } (by decide)
    simpa using h

/-- C10 witness: `observe_sampleRate_spec` at concrete options — a draw of
three quarters against a configured rate of one half takes the early exit
and delivers nothing, while a draw of one half with no configured rate
installs the pipeline. -/
theorem observe_sampleRate_witness :
    observeInit { sampleRate := some (1/2) } (3/4) = observeNoop ∧
    observeRun { sampleRate := some (1/2) } (3/4) 10 [PipeOp.push 5, PipeOp.flush] = [] ∧
    (observeInit { sampleRate := none } (1/2)).globalObserverSet = true := by
  have h := observe_sampleRate_spec { sampleRate := some (1/2) } (3/4)
  have h2 := observe_sampleRate_spec { sampleRate := none } (1/2)
  exact ⟨h.1 (by norm_num), h.2.1 (by norm_num) 10 [PipeOp.push 5, PipeOp.flush],
    h2.2.2 rfl (by norm_num)⟩

/-- `pushAndMaybeFlush` never touches the random cursor. -/
theorem pushAndMaybeFlush_rngIdx (cfg : FullPipeConfig) (st : FullPipeState) (e : MEvent) :
    (pushAndMaybeFlush cfg st e).rngIdx = st.rngIdx := by
  simp only [pushAndMaybeFlush]
  split <;> rfl

/-- `samplerDraw` in the probabilistic regime consumes exactly one draw and
compares it strictly against the rate. -/
theorem samplerDraw_mid (rate : ℚ) (rng : ℕ → ℚ) (k : ℕ) (h0 : 0 < rate) (h1 : rate < 1) :
    samplerDraw rate rng k = (decide (rng k < rate), k + 1) := by
  unfold samplerDraw
  rw [if_neg (by simp only [ge_iff_le, not_le]; exact h1),
    if_neg (by simp only [not_le]; exact h0)]

/-- C4: in the full `bufferEvent`, the caller-supplied filter runs first
and a rejected event is dropped with the state — including the random
cursor — untouched; an accepted event is sampled by category (one draw in
the probabilistic regime), a failed draw drops it with only the cursor
advanced, and a surviving event is session-tagged when session tracking is
enabled, appended, and the buffer flushed once it reaches the batch
size. -/
theorem bufferEvent_order_spec (cfg : FullPipeConfig) (st : FullPipeState) (e : MEvent) :
    (applyFilter cfg.filter e = false → bufferEventFull cfg st e = st) ∧
    (∀ cat : SCat, applyFilter cfg.filter e = true →
      eventTypeToSamplingType e.etype = some cat →
      0 < samplerRates cfg.sampling cat → samplerRates cfg.sampling cat < 1 →
      (bufferEventFull cfg st e).rngIdx = st.rngIdx + 1) ∧
    (∀ cat : SCat, applyFilter cfg.filter e = true →
      eventTypeToSamplingType e.etype = some cat →
      (samplerDraw (samplerRates cfg.sampling cat) cfg.rng st.rngIdx).1 = false →
      bufferEventFull cfg st e =
        { st with rngIdx := (samplerDraw (samplerRates cfg.sampling cat) cfg.rng st.rngIdx).2 }) ∧
    (∀ cat : SCat, applyFilter cfg.filter e = true →
      eventTypeToSamplingType e.etype = some cat →
      (samplerDraw (samplerRates cfg.sampling cat) cfg.rng st.rngIdx).1 = true →
      bufferEventFull cfg st e =
        pushAndMaybeFlush cfg
          { st with rngIdx := (samplerDraw (samplerRates cfg.sampling cat) cfg.rng st.rngIdx).2 }
          (if cfg.sessionEnabled then { e with sessionId := some cfg.sessionId } else e)) ∧
    (∀ (st2 : FullPipeState) (e2 : MEvent),
      ((st2.buffer ++ [e2]).length ≥ cfg.batchSize →
        pushAndMaybeFlush cfg st2 e2 =
          { buffer := [], sent := st2.sent ++ [st2.buffer ++ [e2]], rngIdx := st2.rngIdx }) ∧
      (¬ (st2.buffer ++ [e2]).length ≥ cfg.batchSize →
        pushAndMaybeFlush cfg st2 e2 = { st2 with buffer := st2.buffer ++ [e2] })) := by
  refine ⟨?_, ?_, ?_, ?_, ?_⟩
  · intro hf
    simp [bufferEventFull, hf]
  · intro cat hf hcat h0 h1
    simp only [bufferEventFull, hf, hcat, if_pos]
    rw [samplerDraw_mid _ _ _ h0 h1]
    by_cases hdec : cfg.rng st.rngIdx < samplerRates cfg.sampling cat
    · simp [hdec, pushAndMaybeFlush_rngIdx]
    · simp [hdec]
  · intro cat hf hcat hfail
    simp only [bufferEventFull, hf, hcat, if_pos]
    rw [hfail]
    simp
  · intro cat hf hcat hkeep
    simp only [bufferEventFull, hf, hcat, if_pos]
    rw [hkeep]
    simp
  · intro st2 e2
    constructor
    · intro h
      have h2 : cfg.batchSize ≤ st2.buffer.length + 1 := by simpa using h
      simp [pushAndMaybeFlush, h2]
    · intro h
      have h2 : ¬ cfg.batchSize ≤ st2.buffer.length + 1 := by simpa using h
      simp [pushAndMaybeFlush, h2]

/-- C4 witness: `bufferEvent_order_spec` at a concrete pipeline — a
filtered-out event leaves the state (cursor included) untouched, and an
accepted vital event consumes one draw, is tagged with session id 9, and is
appended to the buffer. -/
theorem bufferEvent_order_witness :
    bufferEventFull
      { filter := some (fun ev => decide (ev.eid ≠ 0)), sampling := .num (1/2),
        sessionEnabled := true, sessionId := 9, batchSize := 10, rng := fun _ => 1/4 }
      { buffer := [], sent := [], rngIdx := 0 }
      { etype := "vital", eid := 0, sessionId := none } =
      { buffer := [], sent := [], rngIdx := 0 } ∧
    bufferEventFull
      { filter := some (fun ev => decide (ev.eid ≠ 0)), sampling := .num (1/2),
        sessionEnabled := true, sessionId := 9, batchSize := 10, rng := fun _ => 1/4 }
      { buffer := [], sent := [], rngIdx := 0 }
      { etype := "vital", eid := 1, sessionId := none } =
      { buffer := [{ etype := "vital", eid := 1, sessionId := some 9 }], sent := [],
        rngIdx := 1 } := by
  constructor
  · exact (bufferEvent_order_spec _ _ _).1 rfl
  · have hd : samplerDraw
        (samplerRates (.num (1/2)) SCat.vitals) (fun _ => (1/4 : ℚ)) 0 =
        (true, 1) := by
      rw [samplerDraw_mid _ _ _ (by norm_num [samplerRates, normalizeRate])
        (by norm_num [samplerRates, normalizeRate])]
      norm_num [samplerRates, normalizeRate]
    have h := (bufferEvent_order_spec
      { filter := some (fun ev => decide (ev.eid ≠ 0)), sampling := .num (1/2),
        sessionEnabled := true, sessionId := 9, batchSize := 10, rng := fun _ => 1/4 }
      { buffer := [], sent := [], rngIdx := 0 }
      { etype := "vital", eid := 1, sessionId := none }).2.2.2.1 SCat.vitals rfl rfl
      (by rw [hd])
    rw [h, hd]
    simp [pushAndMaybeFlush]

end Svoose
